import Mathlib

/-!
Shallow embedding of the semantest/browser automation-learning core:
the automation storage engine (IndexedDB-backed and in-memory backends,
`src/dist/index.js`, storage section) and the `AutomationManager`
(`src/src/learning/automation-manager.ts`).

Numbers that are JavaScript `number`s in the source are modelled as `ℚ`
(confidences) or `Int` (millisecond timestamps); all concrete inputs used
below are chosen so that the rational and IEEE-754 comparisons agree.
JavaScript values appearing as context values / context patterns are
modelled by `JSVal` (a string or `undefined`, the cases the spec
exercises).
-/

set_option autoImplicit false

namespace Semantest

/-- A JavaScript value as it appears in `context` / `contextPatterns`
maps: a string, or `undefined` (a key that is absent). -/
inductive JSVal where
  | str (s : String)
  | undefined
  deriving DecidableEq, Repr

/-- JavaScript `String(v)`: strings unchanged, `String(undefined) = "undefined"`. -/
def jsString : JSVal → String
  | .str s => s
  | .undefined => "undefined"

/-- `metadata` sub-object of a stored automation (`StoredAutomation.metadata`
in `src/dist/index.js`).  Dates are epoch milliseconds. -/
structure AutoMetadata where
  recordedAt : Int
  lastUsed : Option Int
  useCount : Nat
  actionsCount : Nat
  recordingDuration : Option Int
  tags : Option (List String)
  userNotes : Option String
  confidence : ℚ
  deriving DecidableEq, Repr

/-- `matching` sub-object of a stored automation. -/
structure MatchingInfo where
  urlPattern : Option String
  domainPattern : Option String
  exactParameters : List String
  contextPatterns : Option (List (String × JSVal))
  deriving DecidableEq, Repr

/-- `StoredAutomation` record (`src/dist/index.js`, storage section). -/
structure StoredAutomation where
  id : String
  eventType : String
  action : String
  website : String
  parameters : List String
  playwrightScript : String
  templatedScript : String
  metadata : AutoMetadata
  matching : MatchingInfo
  version : Nat
  deriving DecidableEq, Repr

/-- `AutomationSearchCriteria` (`src/dist/index.js`, storage section).
`none` models an absent (`undefined`) field. -/
structure AutomationSearchCriteria where
  eventType : Option String
  action : Option String
  website : Option String
  parameters : Option (List String)
  context : Option (List (String × JSVal))
  minConfidence : Option ℚ
  deriving DecidableEq, Repr

/-- Criteria with every field absent (`{}` in JavaScript). -/
def emptyCriteria : AutomationSearchCriteria :=
  ⟨none, none, none, none, none, none⟩

/-- JavaScript truthiness of an optional string field: `undefined` and the
empty string are falsy (`if (criteria.action)` in the source). -/
def truthyStr : Option String → Bool
  | none => false
  | some s => !(s == "")

/-- Lookup in an association list, the model of a JavaScript `Map` /
plain-object keyed access. -/
def lookupKey {α : Type} : List (String × α) → String → Option α
  | [], _ => none
  | (k, v) :: t, key => if k == key then some v else lookupKey t key

/-- JavaScript `Map.prototype.set` / keyed upsert: replace in place when the
key is present (insertion order is kept), otherwise append. -/
def mapSet {α : Type} (key : String) (v : α) : List (String × α) → List (String × α)
  | [] => [(key, v)]
  | (k, w) :: t => if k == key then (key, v) :: t else (k, w) :: mapSet key v t

/-- JavaScript `Map.prototype.delete`. -/
def mapDelete {α : Type} (key : String) (m : List (String × α)) : List (String × α) :=
  m.filter (fun e => !(e.1 == key))

/-- `context[key]` in JavaScript: `undefined` when the key is absent. -/
def jsCtxGet (ctx : List (String × JSVal)) (k : String) : JSVal :=
  (lookupKey ctx k).getD .undefined

/-- Literal chunks of a wildcard pattern: the pieces between the `*`s,
i.e. the result of `pattern.split('*')` (so `pattern.replace(/\*/g, '.*')`
is the regex chunk₁ `.*` chunk₂ `.*` … chunkₙ). -/
def starChunks (p : String) : List (List Char) :=
  (p.splitOn "*").map String.toList

/-- `RegExp.prototype.test` for the regex chunk₁ `.*` chunk₂ `.*` … chunkₙ:
an UNANCHORED search, true iff the chunks occur (disjointly, in order)
somewhere in the string. -/
def embedsChunks : List (List Char) → List Char → Bool
  | [], _ => true
  | c :: cs, s =>
      s.tails.any (fun t => List.isPrefixOf c t && embedsChunks cs (t.drop c.length))

/-- `new RegExp(pattern.replace(/\*/g, '.*')).test(s)` from
`IndexedDBAutomationStorage.matchesContext`. -/
def regexStarTest (p : String) (s : String) : Bool :=
  embedsChunks (starChunks p) s.toList

/-- Body of `IndexedDBAutomationStorage.matchesContext` over the
`contextPatterns` map: no patterns means no restriction; a string pattern
containing `*` is tested (unanchored) against the stringified context
value; any other pattern must be strictly equal to the context value. -/
def matchesContextPats : Option (List (String × JSVal)) → List (String × JSVal) → Bool
  | none, _ => true
  | some pats, ctx =>
      pats.all (fun kp =>
        let v := jsCtxGet ctx kp.1
        match kp.2 with
        | .str p => if p.contains '*' then regexStarTest p (jsString v) else v == JSVal.str p
        | .undefined => v == JSVal.undefined)

/-- `IndexedDBAutomationStorage.matchesContext(automation, context)`. -/
def matchesContext (a : StoredAutomation) (ctx : List (String × JSVal)) : Bool :=
  matchesContextPats a.matching.contextPatterns ctx

/-- Insert into a comparator-sorted list: `x` goes before the first element
`h` with `cmp x h < 0`, after elements comparing `≥ 0` (stable). -/
def insertCmp {α : Type} (cmp : α → α → ℚ) (x : α) : List α → List α
  | [] => [x]
  | h :: t => if cmp x h < 0 then x :: h :: t else h :: insertCmp cmp x t

/-- Stable comparator sort modelling `Array.prototype.sort(cmp)`
(ECMAScript requires the sort to be stable). -/
def sortCmp {α : Type} (cmp : α → α → ℚ) (l : List α) : List α :=
  l.foldl (fun acc x => insertCmp cmp x acc) []

/-- The comparator of `IndexedDBAutomationStorage.findMatching`: confidence
descending, but a confidence gap of at most 0.1 is broken by `useCount`
descending. -/
def idbCompare (a b : StoredAutomation) : ℚ :=
  let confidenceDiff := b.metadata.confidence - a.metadata.confidence
  if 1/10 < |confidenceDiff| then confidenceDiff
  else (b.metadata.useCount : ℚ) - (a.metadata.useCount : ℚ)

/-- The comparator of `MemoryAutomationStorage.findMatching`: confidence
descending only. -/
def memCompare (a b : StoredAutomation) : ℚ :=
  b.metadata.confidence - a.metadata.confidence

/-- The IndexedDB object store: records in primary-key (`id`) order, the
order in which `getAll` returns them. -/
abbrev IdbStore := List StoredAutomation

/-- `IDBObjectStore.put` keyed by `id`: replace the record with the same
key, otherwise insert at its key position. -/
def idbPut (a : StoredAutomation) : IdbStore → IdbStore
  | [] => [a]
  | b :: t =>
      if b.id == a.id then a :: t
      else if a.id < b.id then a :: b :: t
      else b :: idbPut a t

/-- `IndexedDBAutomationStorage.save`. -/
def idbSave (a : StoredAutomation) (s : IdbStore) : IdbStore :=
  idbPut a s

/-- `IndexedDBAutomationStorage.getById`. -/
def idbGetById (id : String) (s : IdbStore) : Option StoredAutomation :=
  s.find? (fun a => a.id == id)

/-- `IndexedDBAutomationStorage.findMatching`: pick one index path
(action+website compound, else action, else website, else eventType, else
full scan), then filter by required parameters, `minConfidence` and
context patterns, then sort with the epsilon tie-break comparator. -/
def idbFindMatching (c : AutomationSearchCriteria) (s : IdbStore) : List StoredAutomation :=
  let base :=
    if truthyStr c.action && truthyStr c.website then
      s.filter (fun a => a.action == c.action.getD "" && a.website == c.website.getD "")
    else if truthyStr c.action then
      s.filter (fun a => a.action == c.action.getD "")
    else if truthyStr c.website then
      s.filter (fun a => a.website == c.website.getD "")
    else if truthyStr c.eventType then
      s.filter (fun a => a.eventType == c.eventType.getD "")
    else s
  let r1 :=
    match c.parameters with
    | none => base
    | some ps => base.filter (fun a => ps.all (fun p => a.parameters.contains p))
  let r2 :=
    match c.minConfidence with
    | none => r1
    | some mc => r1.filter (fun a => mc ≤ a.metadata.confidence)
  let r3 :=
    match c.context with
    | none => r2
    | some ctx => r2.filter (fun a => matchesContext a ctx)
  sortCmp idbCompare r3

/-- The survivors of `IndexedDBAutomationStorage.findMatching` just
before its final sort: the chosen index path refined by the required
parameter, `minConfidence` and context filters — the same pipeline as
`idbFindMatching`, stopping at the array `results.sort` receives. -/
def idbSurvivors (c : AutomationSearchCriteria) (s : IdbStore) : List StoredAutomation :=
  let base :=
    if truthyStr c.action && truthyStr c.website then
      s.filter (fun a => a.action == c.action.getD "" && a.website == c.website.getD "")
    else if truthyStr c.action then
      s.filter (fun a => a.action == c.action.getD "")
    else if truthyStr c.website then
      s.filter (fun a => a.website == c.website.getD "")
    else if truthyStr c.eventType then
      s.filter (fun a => a.eventType == c.eventType.getD "")
    else s
  let r1 :=
    match c.parameters with
    | none => base
    | some ps => base.filter (fun a => ps.all (fun p => a.parameters.contains p))
  let r2 :=
    match c.minConfidence with
    | none => r1
    | some mc => r1.filter (fun a => mc ≤ a.metadata.confidence)
  match c.context with
  | none => r2
  | some ctx => r2.filter (fun a => matchesContext a ctx)

/-- `IndexedDBAutomationStorage.updateUsage`: rejects with a NotFound
error when the id is absent, otherwise stamps `lastUsed`, increments
`useCount` and nudges `confidence` by 0.05 capped at 1, then saves. -/
def idbUpdateUsage (now : Int) (id : String) (s : IdbStore) : Except String IdbStore :=
  match idbGetById id s with
  | none => .error ("Automation " ++ id ++ " not found")
  | some a =>
      .ok (idbSave
        { a with metadata :=
            { a.metadata with
                lastUsed := some now
                useCount := a.metadata.useCount + 1
                confidence := min 1 (a.metadata.confidence + 1/20) } } s)

/-- `IndexedDBAutomationStorage.deleteById`. -/
def idbDeleteById (id : String) (s : IdbStore) : IdbStore :=
  s.filter (fun a => !(a.id == id))

/-- `IndexedDBAutomationStorage.exportAll` (`getAll`). -/
def idbExportAll (s : IdbStore) : List StoredAutomation := s

/-- `IndexedDBAutomationStorage.importAutomations`: `put` each record. -/
def idbImport (l : List StoredAutomation) (s : IdbStore) : IdbStore :=
  l.foldl (fun acc a => idbPut a acc) s

/-- `IndexedDBAutomationStorage.clear`. -/
def idbClear (_ : IdbStore) : IdbStore := []

/-- The in-memory backend's `Map<string, StoredAutomation>`, in insertion
order. -/
abbrev MemStore := List (String × StoredAutomation)

/-- `MemoryAutomationStorage.save`. -/
def memSave (a : StoredAutomation) (s : MemStore) : MemStore :=
  mapSet a.id a s

/-- `Map.prototype.values()` of the in-memory store. -/
def memValues (s : MemStore) : List StoredAutomation :=
  s.map (fun kv => kv.2)

/-- `MemoryAutomationStorage.findMatching`: a single filter loop (note: it
checks `eventType`, `action` and `website` all at once, applies
`minConfidence` and required parameters, and has NO context filtering),
then sorts by confidence descending only. -/
def memFindMatching (c : AutomationSearchCriteria) (s : MemStore) : List StoredAutomation :=
  let keep : StoredAutomation → Bool := fun a =>
    (!(truthyStr c.eventType) || a.eventType == c.eventType.getD "") &&
    (!(truthyStr c.action) || a.action == c.action.getD "") &&
    (!(truthyStr c.website) || a.website == c.website.getD "") &&
    (match c.minConfidence with
     | none => true
     | some mc => decide (mc ≤ a.metadata.confidence)) &&
    (match c.parameters with
     | none => true
     | some ps => ps.all (fun p => a.parameters.contains p))
  sortCmp memCompare ((memValues s).filter keep)

/-- `MemoryAutomationStorage.getById`. -/
def memGetById (id : String) (s : MemStore) : Option StoredAutomation :=
  lookupKey s id

/-- `MemoryAutomationStorage.updateUsage`: silently does nothing when the
id is absent (it never rejects), otherwise mutates the stored record in
place. -/
def memUpdateUsage (now : Int) (id : String) (s : MemStore) : MemStore :=
  match lookupKey s id with
  | none => s
  | some a =>
      mapSet id
        { a with metadata :=
            { a.metadata with
                lastUsed := some now
                useCount := a.metadata.useCount + 1
                confidence := min 1 (a.metadata.confidence + 1/20) } } s

/-- `MemoryAutomationStorage.deleteById`. -/
def memDeleteById (id : String) (s : MemStore) : MemStore :=
  mapDelete id s

/-- `MemoryAutomationStorage.exportAll`. -/
def memExportAll (s : MemStore) : List StoredAutomation :=
  memValues s

/-- `MemoryAutomationStorage.importAutomations`: `set` each record keyed by
its id. -/
def memImport (l : List StoredAutomation) (s : MemStore) : MemStore :=
  l.foldl (fun acc a => mapSet a.id a acc) s

/-- `MemoryAutomationStorage.clear`. -/
def memClear (_ : MemStore) : MemStore := []

/-- The three user-preference actions of `ReusePreference.action`. -/
inductive PrefAction where
  | reuse
  | recordNew
  | skip
  deriving DecidableEq, Repr

/-- The `doNotAskFor.type` discriminator. -/
inductive DoNotAskKind where
  | times
  | duration
  deriving DecidableEq, Repr

/-- `ReusePreference` (`src/src/learning/automation-manager.ts`):
`doNotAskFor.value` counts minutes for `duration`, occurrences for
`times`. -/
structure ReusePreference where
  action : PrefAction
  doNotAskFor : Option (DoNotAskKind × Int)
  deriving DecidableEq, Repr

/-- One entry of `AutomationManager.userPreferences`: the preference plus
its expiry timestamp (`until` in the source, epoch milliseconds). -/
structure PrefEntry where
  untilTime : Int
  preference : ReusePreference
  deriving DecidableEq, Repr

/-- The `userPreferences` map, in insertion order. -/
abbrev PrefMap := List (String × PrefEntry)

/-- `AutomationManager.getPreferenceKey`:
`` `${action}:${website || 'any'}` `` — an absent or empty website falls
back to `'any'`. -/
def prefKey (action : String) (website : Option String) : String :=
  action ++ ":" ++ (if truthyStr website then website.getD "" else "any")

/-- The expiry timestamp `AutomationManager.setUserPreference` computes:
now + value minutes for `duration`, now + value hours for `times`,
now + 24 hours when `doNotAskFor` is absent. -/
def expiryFor (now : Int) (p : ReusePreference) : Int :=
  match p.doNotAskFor with
  | some (.duration, v) => now + v * 60 * 1000
  | some (.times, v) => now + v * 60 * 60 * 1000
  | none => now + 24 * 60 * 60 * 1000

/-- `AutomationManager.setUserPreference` acting on the preference map. -/
def setUserPreference (now : Int) (action : String) (website : Option String)
    (p : ReusePreference) (m : PrefMap) : PrefMap :=
  mapSet (prefKey action website) ⟨expiryFor now p, p⟩ m

/-- `AutomationManager.getUserPreference` (private): a missing or expired
entry is deleted and reported as a miss; a live entry (`until ≥ now`) is
returned unchanged.  Returns the possibly-updated map as second
component. -/
def getUserPreference (now : Int) (key : String) (m : PrefMap) :
    Option PrefEntry × PrefMap :=
  match lookupKey m key with
  | none => (none, mapDelete key m)
  | some e => if e.untilTime < now then (none, mapDelete key m) else (some e, m)

/-- An `AutomationRequestedEvent` as `handleAutomationRequest` consumes
it: its `type` tag, payload action/parameters/context, and optional
website. -/
structure AutomationRequest where
  type : String
  action : String
  website : Option String
  parameters : List (String × JSVal)
  context : Option (List (String × JSVal))
  deriving DecidableEq, Repr

/-- `AutomationManager.createSearchCriteria`: fixed `minConfidence = 0.5`,
parameter names taken from the request payload. -/
def createSearchCriteria (e : AutomationRequest) : AutomationSearchCriteria :=
  { eventType := some e.type
    action := some e.action
    website := e.website
    parameters := some (e.parameters.map (fun kv => kv.1))
    context := e.context
    minConfidence := some (1/2) }

/-- The outcome tag of `handleAutomationRequest`. -/
inductive DecisionKind where
  | execute
  | reusePrompt
  | recordNew
  deriving DecidableEq, Repr

/-- The result object of `handleAutomationRequest`. -/
structure Decision where
  action : DecisionKind
  automation : Option StoredAutomation
  message : String
  deriving DecidableEq, Repr

/-- Lines 87-110 of `handleAutomationRequest`: the part after the
preference switch — no matches means record-new; otherwise execute the
top match under a `reuse` preference, else prompt with the match count. -/
def decideWithMatches (upref : Option PrefEntry) (found : List StoredAutomation) :
    Decision :=
  match found with
  | [] => ⟨.recordNew, none, "No existing automation found for this action"⟩
  | m :: rest =>
      if upref.map (fun pe => pe.preference.action) == some .reuse then
        ⟨.execute, some m, "Executing stored automation based on user preference"⟩
      else
        ⟨.reusePrompt, some m,
          "Found " ++ toString (rest.length + 1) ++ " matching automation(s)"⟩

/-- `AutomationManager.handleAutomationRequest`, with the Storage Engine's
`findMatching` injected as `findM` (the manager receives its storage by
constructor injection).  Returns the decision and the preference map
after the lazy-expiry read. -/
def handleAutomationRequest (findM : AutomationSearchCriteria → List StoredAutomation)
    (now : Int) (prefs : PrefMap) (e : AutomationRequest) : Decision × PrefMap :=
  let criteria := createSearchCriteria e
  let pr := getUserPreference now (prefKey e.action e.website) prefs
  match pr.1 with
  | some pe =>
      match pe.preference.action with
      | .skip => (⟨.recordNew, none, "User preference: skip automation"⟩, pr.2)
      | .recordNew => (⟨.recordNew, none, "User preference: always record new"⟩, pr.2)
      | .reuse => (decideWithMatches pr.1 (findM criteria), pr.2)
  | none => (decideWithMatches none (findM criteria), pr.2)

/-- The result envelope of `AutomationManager.executeAutomation`
(`AutomationExecutionResult` in the source), with result type `R`. -/
structure AutomationExecutionResult (R : Type) where
  success : Bool
  result : Option R
  error : Option String
  executionTime : Int
  automationId : String
  deriving DecidableEq, Repr

/-- `AutomationManager.executeAutomation`: the whole body runs in a
`try`, and any failure — storage rejection, missing id, or a throwing
execution step — is converted into a `{success:false, error}` envelope.
The storage calls and the execution step (`simulateExecution` in the
source, a placeholder for the external script runner) are injected;
`t0`/`t1` are the wall-clock readings at entry and at return. -/
def executeAutomation {R : Type}
    (getById : String → Except String (Option StoredAutomation))
    (updateUsage : String → Except String Unit)
    (exec : StoredAutomation → Except String R)
    (t0 t1 : Int) (id : String) : AutomationExecutionResult R :=
  let body : Except String R := do
    let a? ← getById id
    match a? with
    | none => Except.error ("Automation " ++ id ++ " not found")
    | some a => do
        updateUsage id
        exec a
  match body with
  | .ok r => ⟨true, some r, none, t1 - t0, id⟩
  | .error e => ⟨false, none, some e, t1 - t0, id⟩

/-- The state of an `AutomationManager` running over the in-memory
backend (the backend `createAutomationStorage` picks outside a browser):
the automation store plus the preference map. -/
structure ManagerState where
  store : MemStore
  prefs : PrefMap
  deriving DecidableEq, Repr

/-- `AutomationManager.getAllAutomations` (delegates to `exportAll`). -/
def getAllAutomations (st : ManagerState) : List StoredAutomation :=
  memExportAll st.store

/-- `AutomationManager.exportAutomations` (delegates to `exportAll`). -/
def exportAutomations (st : ManagerState) : List StoredAutomation :=
  memExportAll st.store

/-- `AutomationManager.importAutomations` (delegates to the storage
import). -/
def importAutomations (l : List StoredAutomation) (st : ManagerState) : ManagerState :=
  { st with store := memImport l st.store }

/-- `AutomationManager.clearAllAutomations`: clears the storage AND the
user-preference map. -/
def clearAllAutomations (st : ManagerState) : ManagerState :=
  { store := memClear st.store, prefs := [] }

/-- The ranking relation claimed for `findMatching` output: `a` must
precede `b` when `a`'s confidence exceeds `b`'s by more than 0.1, or when
the confidences are within 0.1 of each other and `a` has the larger
`useCount`. -/
def rankPrecedes (a b : StoredAutomation) : Bool :=
  decide (mkRat 1 10 < a.metadata.confidence - b.metadata.confidence) ||
  (decide (|a.metadata.confidence - b.metadata.confidence| ≤ mkRat 1 10) &&
   decide (b.metadata.useCount < a.metadata.useCount))

/-- Chunks occur disjointly, in this order, somewhere inside the string:
the mathematical meaning of an unanchored search for the regex
chunk₁ `.*` chunk₂ `.*` … chunkₙ. -/
inductive ChunksEmbed : List (List Char) → List Char → Prop
  | nil (s : List Char) : ChunksEmbed [] s
  | cons (c : List Char) (cs : List (List Char)) (pre rest : List Char) :
      ChunksEmbed cs rest → ChunksEmbed (c :: cs) (pre ++ (c ++ rest))

/-- The per-key context-pattern condition, stated at the Prop level: a
starred pattern requires its chunks to occur in order in the stringified
context value (unanchored), a star-free pattern requires strict
equality. -/
def ctxPatOk (ctx : List (String × JSVal)) (kp : String × JSVal) : Prop :=
  match kp.2 with
  | .str p =>
      if p.contains '*' then ChunksEmbed (starChunks p) (jsString (jsCtxGet ctx kp.1)).toList
      else jsCtxGet ctx kp.1 = JSVal.str p
  | .undefined => jsCtxGet ctx kp.1 = JSVal.undefined

/-- Modelled from the spec: anchored tail match for the regex
`.*` chunk₁ `.*` chunk₂ … `.*` chunkₙ `$` — the last chunk must end the
string.  Helper for `specContextFullMatch`. -/
def tailChunksFull : List (List Char) → List Char → Bool
  | [], s => s.isEmpty
  | [c], s => s.tails.any (fun t => t == c)
  | c :: cs, s =>
      s.tails.any (fun t => List.isPrefixOf c t && tailChunksFull cs (t.drop c.length))

/-- Modelled from the spec: FULL (anchored) match of the wildcard
pattern, the reading "the stringified context value must fully match"
in the spec's context-pattern rule — the first chunk must start the
string and the last chunk must end it. -/
def fullChunks : List (List Char) → List Char → Bool
  | [], s => s.isEmpty
  | [c], s => s == c
  | c :: cs, s => List.isPrefixOf c s && tailChunksFull cs (s.drop c.length)

/-- Modelled from the spec: the context-pattern rule with full (anchored)
wildcard matching, as the spec words it; to be compared with the source's
`matchesContextPats`. -/
def specContextFullMatch : Option (List (String × JSVal)) → List (String × JSVal) → Bool
  | none, _ => true
  | some pats, ctx =>
      pats.all (fun kp =>
        let v := jsCtxGet ctx kp.1
        match kp.2 with
        | .str p => if p.contains '*' then fullChunks (starChunks p) (jsString v).toList else v == JSVal.str p
        | .undefined => v == JSVal.undefined)

/-- The TTL formula claimed for the preference cache: set time plus
`value` minutes for `duration`, plus `value` hours for `times`, plus 24
hours when `doNotAskFor` is absent (all in milliseconds). -/
def claimExpiry (now : Int) (p : ReusePreference) : Int :=
  match p.doNotAskFor with
  | some (.duration, v) => now + v * 60 * 1000
  | some (.times, v) => now + v * 60 * 60 * 1000
  | none => now + 24 * 60 * 60 * 1000

/-- The record mutation `updateUsage` performs on a found automation
(both backends): stamp `lastUsed`, increment `useCount`, bump
`confidence` by 0.05 capping at 1. -/
def bumpRec (now : Int) (a : StoredAutomation) : StoredAutomation :=
  { a with metadata :=
      { a.metadata with
          lastUsed := some now
          useCount := a.metadata.useCount + 1
          confidence := min 1 (a.metadata.confidence + 1/20) } }

/-- `n` successive `updateUsage` calls on the IndexedDB backend (a
rejected call leaves the store as it was). -/
def iterUpd (now : Int) (id : String) : Nat → IdbStore → IdbStore
  | 0, s => s
  | n + 1, s =>
      match idbUpdateUsage now id (iterUpd now id n s) with
      | .ok s' => s'
      | .error _ => iterUpd now id n s

/-- The confidence of the record `getById` returns, if any. -/
def confById (id : String) (s : IdbStore) : Option ℚ :=
  (idbGetById id s).map (fun a => a.metadata.confidence)

/-- A fixture automation: `action "search"` on `example.com` expecting
parameter `query`, confidence 0.8, never used. -/
def baseAuto : StoredAutomation :=
  { id := "base"
    eventType := "automationRequested"
    action := "search"
    website := "example.com"
    parameters := ["query"]
    playwrightScript := "script"
    templatedScript := "template"
    metadata :=
      { recordedAt := 0, lastUsed := none, useCount := 0, actionsCount := 1
        recordingDuration := none, tags := none, userNotes := none
        confidence := mkRat 4 5 }
    matching :=
      { urlPattern := some "https://example.com/*", domainPattern := some "example.com"
        exactParameters := ["query"], contextPatterns := none }
    version := 1 }

/-- Fixture: confidence 0.80, used 10 times (id `"a"`). -/
def autoHiUse : StoredAutomation :=
  { baseAuto with
    id := "a"
    metadata := { baseAuto.metadata with useCount := 10, confidence := mkRat 4 5 } }

/-- Fixture: confidence 0.85, used once (id `"b"`). -/
def autoHiConf : StoredAutomation :=
  { baseAuto with
    id := "b"
    metadata := { baseAuto.metadata with useCount := 1, confidence := mkRat 17 20 } }

/-- Fixture: confidence 0.90, never used (id `"x"`). -/
def cxHiConf : StoredAutomation :=
  { baseAuto with
    id := "x"
    metadata := { baseAuto.metadata with useCount := 0, confidence := mkRat 9 10 } }

/-- Fixture: confidence 0.81, used 5 times (id `"y"`). -/
def cxMidConf : StoredAutomation :=
  { baseAuto with
    id := "y"
    metadata := { baseAuto.metadata with useCount := 5, confidence := mkRat 81 100 } }

/-- Fixture: confidence 0.72, used 10 times (id `"z"`). -/
def cxLoConf : StoredAutomation :=
  { baseAuto with
    id := "z"
    metadata := { baseAuto.metadata with useCount := 10, confidence := mkRat 18 25 } }

/-- Fixture for the spec's ranking example: confidence 0.90, useCount 2. -/
def exFirstListed : StoredAutomation :=
  { baseAuto with
    id := "p1"
    metadata := { baseAuto.metadata with useCount := 2, confidence := mkRat 9 10 } }

/-- Fixture for the spec's ranking example: confidence 0.81, useCount 9. -/
def exSecondListed : StoredAutomation :=
  { baseAuto with
    id := "p2"
    metadata := { baseAuto.metadata with useCount := 9, confidence := mkRat 81 100 } }

/-- Fixture: confidence 0.30, never used (id `"p0"`) — filtered away by
a `minConfidence` of 0.5. -/
def exLowConf : StoredAutomation :=
  { baseAuto with
    id := "p0"
    metadata := { baseAuto.metadata with useCount := 0, confidence := mkRat 3 10 } }

/-- Fixture criteria: `search` on `example.com` with a 0.5 confidence
floor. -/
def c2Crit : AutomationSearchCriteria :=
  { eventType := none
    action := some "search"
    website := some "example.com"
    parameters := none
    context := none
    minConfidence := some (mkRat 1 2) }

/-- Fixture with a wildcard context pattern `k ↦ "abc*"`. -/
def ctxAuto : StoredAutomation :=
  { baseAuto with
    id := "c"
    matching := { baseAuto.matching with contextPatterns := some [("k", .str "abc*")] } }

/-- Fixture: a perfect-confidence automation (id `"perfect"`). -/
def perfectAuto : StoredAutomation :=
  { baseAuto with
    id := "perfect"
    metadata := { baseAuto.metadata with useCount := 3, confidence := 1 } }

/-- Fixture request: `search` on `example.com` with one parameter. -/
def sampleRequest : AutomationRequest :=
  { type := "automationRequested"
    action := "search"
    website := some "example.com"
    parameters := [("query", .str "cats")]
    context := none }

/-- Fixture manager state with two stored automations and no
preferences. -/
def c9Fixture : ManagerState :=
  { store := [("a", autoHiUse), ("b", autoHiConf)], prefs := [] }

/-- Fixture storage stub: `getById` resolves with no record. -/
def cGetNone : String → Except String (Option StoredAutomation) := fun _ => .ok none

/-- Fixture storage stub: `getById` resolves with `baseAuto`. -/
def cGetSome : String → Except String (Option StoredAutomation) :=
  fun _ => .ok (some baseAuto)

/-- Fixture storage stub: `updateUsage` resolves. -/
def cUpd : String → Except String Unit := fun _ => .ok ()

/-- Fixture execution step that throws. -/
def cExecBoom : StoredAutomation → Except String Unit := fun _ => .error "boom"

/-- `lookupKey` after `mapSet` at the same key finds the new value. -/
lemma lookupKey_mapSet_self {α : Type} (m : List (String × α)) (k : String) (v : α) :
    lookupKey (mapSet k v m) k = some v := by
  induction m with
  | nil => simp [mapSet, lookupKey]
  | cons e t ih =>
      by_cases h : e.1 == k
      · simp [mapSet, h, lookupKey]
      · simp [mapSet, h, lookupKey, ih]

/-- `lookupKey` after `mapDelete` at the same key misses. -/
lemma lookupKey_mapDelete_self {α : Type} (m : List (String × α)) (k : String) :
    lookupKey (mapDelete k m) k = none := by
  induction m with
  | nil => rfl
  | cons e t ih =>
      by_cases h : e.1 == k
      · simpa [mapDelete, h] using ih
      · simpa [mapDelete, h, lookupKey] using ih

/-- The expiry the source computes is exactly the claimed TTL formula. -/
lemma expiryFor_eq_claimExpiry (now : Int) (p : ReusePreference) :
    expiryFor now p = claimExpiry now p := rfl

/-- With empty criteria every index path degenerates to a full scan and
no filter applies: `findMatching` is just the sort. -/
lemma idbFindMatching_empty (s : IdbStore) :
    idbFindMatching emptyCriteria s = sortCmp idbCompare s := rfl

/-- Sorting a two-element list just compares the pair once. -/
lemma sortCmp_pair {α : Type} (cmp : α → α → ℚ) (a b : α) :
    sortCmp cmp [a, b] = if cmp b a < 0 then [b, a] else [a, b] := rfl

/-- `findMatching` is exactly the sort of its survivor pipeline, for
every criteria and store. -/
lemma idbFindMatching_eq_sortCmp (c : AutomationSearchCriteria) (s : IdbStore) :
    idbFindMatching c s = sortCmp idbCompare (idbSurvivors c s) := rfl

/-- C1: the claim that the durable (IndexedDB) backend and the in-memory
backend return identical observable results at every step fails on the
code: with the same two stored records (confidences 0.80/0.85, useCounts
10/1) and the same criteria, the IndexedDB `findMatching` breaks the
0.05-confidence near-tie by `useCount` and returns `"a"` first, while the
memory backend sorts by confidence alone and returns `"b"` first. -/
theorem c1_backend_results_diverge :
    (idbFindMatching { emptyCriteria with minConfidence := some (mkRat 1 2) }
        [autoHiUse, autoHiConf]).map (fun a => a.id) = ["a", "b"] ∧
    (memFindMatching { emptyCriteria with minConfidence := some (mkRat 1 2) }
        [("a", autoHiUse), ("b", autoHiConf)]).map (fun a => a.id) = ["b", "a"] := by
  constructor <;> with_unfolding_all rfl

/-- C4: the claim that `updateUsage` on a missing id fails with a
NotFound error on BOTH backends is contradicted by the memory backend:
the IndexedDB backend rejects with the NotFound message, while the memory
backend resolves successfully and leaves the store unchanged. -/
theorem c4_updateUsage_missing_id_diverge :
    idbUpdateUsage 0 "ghost" [] = .error "Automation ghost not found" ∧
    memUpdateUsage 0 "ghost" [("a", autoHiUse)] = [("a", autoHiUse)] := by
  constructor <;> with_unfolding_all rfl

/-- C2 (counterexample): with three survivors of confidences
0.90/0.81/0.72 and useCounts 0/5/10 the claimed pairwise ranking rule is
cyclic (it demands y before x, z before y, and x before z), so the list
`findMatching` returns violates it on some pair. -/
theorem c2_pairwise_ranking_fails :
    ¬ (idbFindMatching emptyCriteria [cxHiConf, cxMidConf, cxLoConf]).Pairwise
        (fun a b => ¬ rankPrecedes b a) := by
  with_unfolding_all decide

/-- C3 (counterexample): the wildcard translation uses `RegExp.test`,
an unanchored search, so pattern `"abc*"` ACCEPTS the context value
`"xabc"` — the claim says it must be rejected (the spec-worded anchored
matcher `specContextFullMatch` indeed rejects it).  The claim's positive
example (`"abc*"` accepts `"abcdefg"`) does hold. -/
theorem c3_wildcard_not_anchored :
    matchesContext ctxAuto [("k", .str "xabc")] = true ∧
    specContextFullMatch ctxAuto.matching.contextPatterns [("k", .str "xabc")] = false ∧
    matchesContext ctxAuto [("k", .str "abcdefg")] = true := by
  refine ⟨?_, ?_, ?_⟩ <;> with_unfolding_all rfl

/-- C10: `clearAllAutomations` empties the preference cache as well as
the automation store: afterwards every preference lookup misses,
`handleAutomationRequest` behaves exactly as with a pristine preference
map, and `getAllAutomations` returns the empty list. -/
theorem c10_clearAll_clears_preferences (st : ManagerState) (t : Int) (key : String)
    (findM : AutomationSearchCriteria → List StoredAutomation) (now : Int)
    (e : AutomationRequest) :
    (clearAllAutomations st).prefs = [] ∧
    (clearAllAutomations st).store = [] ∧
    (getUserPreference t key (clearAllAutomations st).prefs).1 = none ∧
    getAllAutomations (clearAllAutomations st) = [] ∧
    handleAutomationRequest findM now (clearAllAutomations st).prefs e
      = handleAutomationRequest findM now ([] : PrefMap) e :=
  ⟨rfl, rfl, rfl, rfl, rfl⟩

/-- C2 (amended): for EVERY criteria and EVERY store contents under
which exactly two automations survive the filters of `findMatching`
(in either key order), the call returns first the one with confidence
more than 0.1 higher, or, within 0.1, the one with the higher
`useCount` — but because the comparator is not transitive the rule is
not guaranteed for every pair of a larger result list. -/
theorem c2_two_survivors_ranked (c : AutomationSearchCriteria) (s : IdbStore)
    (a b : StoredAutomation)
    (h : rankPrecedes a b = true) :
    (idbSurvivors c s = [a, b] → idbFindMatching c s = [a, b]) ∧
    (idbSurvivors c s = [b, a] → idbFindMatching c s = [a, b]) := by
  have h' : mkRat 1 10 < a.metadata.confidence - b.metadata.confidence ∨
      (|a.metadata.confidence - b.metadata.confidence| ≤ mkRat 1 10 ∧
        b.metadata.useCount < a.metadata.useCount) := by
    simpa [rankPrecedes, decide_eq_true_eq] using h
  have hq : (mkRat 1 10 : ℚ) = 1/10 := by norm_num [Rat.mkRat_eq_div]
  rw [hq] at h'
  have hba : ¬ idbCompare b a < 0 := by
    simp only [idbCompare]
    rcases h' with h1 | ⟨h2, h3⟩
    · have habs : (1:ℚ)/10 < |a.metadata.confidence - b.metadata.confidence| :=
        lt_of_lt_of_le h1 (le_abs_self _)
      rw [if_pos habs]
      have : (0:ℚ) < a.metadata.confidence - b.metadata.confidence := by linarith
      linarith
    · rw [if_neg (not_lt.mpr h2)]
      have : (b.metadata.useCount : ℚ) < (a.metadata.useCount : ℚ) := by
        exact_mod_cast h3
      linarith
  have hab : idbCompare a b < 0 := by
    simp only [idbCompare]
    rcases h' with h1 | ⟨h2, h3⟩
    · have habs : (1:ℚ)/10 < |b.metadata.confidence - a.metadata.confidence| := by
        rw [abs_sub_comm]; exact lt_of_lt_of_le h1 (le_abs_self _)
      rw [if_pos habs]
      linarith
    · have h2' : |b.metadata.confidence - a.metadata.confidence| ≤ 1/10 := by
        rw [abs_sub_comm]; exact h2
      rw [if_neg (not_lt.mpr h2')]
      have : (b.metadata.useCount : ℚ) < (a.metadata.useCount : ℚ) := by
        exact_mod_cast h3
      linarith
  refine ⟨?_, ?_⟩
  · intro hs
    rw [idbFindMatching_eq_sortCmp, hs, sortCmp_pair, if_neg hba]
  · intro hs
    rw [idbFindMatching_eq_sortCmp, hs, sortCmp_pair, if_pos hab]

/-- C2 witness: the spec's own example — candidates (confidence 0.90,
useCount 2) and (confidence 0.81, useCount 9) are the two survivors of a
three-record store filtered by action, website and `minConfidence` 0.5
(a 0.30-confidence record is filtered away), and are returned with the
second first. -/
theorem c2_two_survivors_ranked_witness :
    rankPrecedes exSecondListed exFirstListed = true ∧
    idbSurvivors c2Crit [exLowConf, exFirstListed, exSecondListed]
      = [exFirstListed, exSecondListed] ∧
    idbFindMatching c2Crit [exLowConf, exFirstListed, exSecondListed]
      = [exSecondListed, exFirstListed] :=
  ⟨by with_unfolding_all rfl,
   by with_unfolding_all rfl,
   (c2_two_survivors_ranked c2Crit [exLowConf, exFirstListed, exSecondListed]
      exSecondListed exFirstListed (by with_unfolding_all rfl)).2
     (by with_unfolding_all rfl)⟩

/-- C6: a live `skip` preference short-circuits `handleAutomationRequest`
into `record-new` for EVERY storage behavior `findM` — in particular even
when the store holds a perfect-confidence match. -/
theorem c6_skip_preference (findM : AutomationSearchCriteria → List StoredAutomation)
    (now : Int) (prefs : PrefMap) (e : AutomationRequest) (pe : PrefEntry)
    (hl : lookupKey prefs (prefKey e.action e.website) = some pe)
    (hv : ¬ pe.untilTime < now)
    (hs : pe.preference.action = PrefAction.skip) :
    (handleAutomationRequest findM now prefs e).1
      = ⟨DecisionKind.recordNew, none, "User preference: skip automation"⟩ := by
  simp [handleAutomationRequest, getUserPreference, hl, hv, hs]

/-- C6 witness: skip preference set for `search:example.com`, store
containing a confidence-1.0 match for exactly that action/website. -/
theorem c6_skip_preference_witness :
    (handleAutomationRequest (fun _ => [perfectAuto]) 100
        (setUserPreference 0 "search" (some "example.com") ⟨.skip, none⟩ [])
        sampleRequest).1
      = ⟨DecisionKind.recordNew, none, "User preference: skip automation"⟩ :=
  c6_skip_preference _ 100 _ sampleRequest ⟨86400000, ⟨.skip, none⟩⟩
    (by with_unfolding_all rfl) (by decide) rfl

/-- C7: `executeAutomation` always returns an envelope carrying the
requested `automationId` and the measured wall-clock duration; a missing
id yields `{success:false}` with the not-found message, and a throwing
execution step yields `{success:false}` with the thrown message. -/
theorem c7_execute_envelope {R : Type}
    (g : String → Except String (Option StoredAutomation))
    (u : String → Except String Unit) (ex : StoredAutomation → Except String R)
    (t0 t1 : Int) (id : String) :
    ((executeAutomation g u ex t0 t1 id).automationId = id ∧
     (executeAutomation g u ex t0 t1 id).executionTime = t1 - t0) ∧
    (g id = .ok none →
      executeAutomation g u ex t0 t1 id
        = ⟨false, none, some ("Automation " ++ id ++ " not found"), t1 - t0, id⟩) ∧
    (∀ (a : StoredAutomation) (msg : String),
      g id = .ok (some a) → u id = .ok () → ex a = .error msg →
      executeAutomation g u ex t0 t1 id = ⟨false, none, some msg, t1 - t0, id⟩) := by
  refine ⟨?_, ?_, ?_⟩
  · simp only [executeAutomation]
    split <;> exact ⟨rfl, rfl⟩
  · intro hg
    simp [executeAutomation, hg, Except.bind, bind]
  · intro a msg hg hu he
    simp [executeAutomation, hg, hu, he, Except.bind, bind]

/-- C7 witness: a missing id and a throwing execution step both produce
failure envelopes with the measured duration and the id. -/
theorem c7_execute_envelope_witness :
    executeAutomation cGetNone cUpd cExecBoom 5 9 "missing"
      = ⟨false, none, some "Automation missing not found", 4, "missing"⟩ ∧
    executeAutomation cGetSome cUpd cExecBoom 3 10 "base"
      = ⟨false, none, some "boom", 7, "base"⟩ :=
  ⟨(c7_execute_envelope cGetNone cUpd cExecBoom 5 9 "missing").2.1 rfl,
   (c7_execute_envelope cGetSome cUpd cExecBoom 3 10 "base").2.2 baseAuto "boom" rfl rfl rfl⟩

/-- C8: a preference set at `now` is stored under its key with expiry
`now` + value minutes (`duration`) / + value hours (`times`) / + 24 hours
(no `doNotAskFor`); a read at `t` returns it exactly when `t` has not
passed the expiry; an expired read deletes the entry, and any later read
(at any time) misses. -/
theorem c8_preference_ttl (now t1 t2 : Int) (m : PrefMap) (act : String)
    (web : Option String) (p : ReusePreference)
    (hexp : claimExpiry now p < t1) :
    lookupKey (setUserPreference now act web p m) (prefKey act web)
      = some ⟨claimExpiry now p, p⟩ ∧
    (∀ t : Int,
      (getUserPreference t (prefKey act web) (setUserPreference now act web p m)).1
        = if claimExpiry now p < t then none else some ⟨claimExpiry now p, p⟩) ∧
    (getUserPreference t2 (prefKey act web)
        ((getUserPreference t1 (prefKey act web)
            (setUserPreference now act web p m)).2)).1 = none := by
  have h1 : lookupKey (setUserPreference now act web p m) (prefKey act web)
      = some ⟨claimExpiry now p, p⟩ := by
    simpa [setUserPreference, expiryFor_eq_claimExpiry] using
      lookupKey_mapSet_self m (prefKey act web) (⟨claimExpiry now p, p⟩ : PrefEntry)
  refine ⟨h1, ?_, ?_⟩
  · intro t
    by_cases hc : claimExpiry now p < t
    · simp [getUserPreference, h1, hc]
    · simp [getUserPreference, h1, hc]
  · have h2 : (getUserPreference t1 (prefKey act web)
        (setUserPreference now act web p m)).2
        = mapDelete (prefKey act web) (setUserPreference now act web p m) := by
      simp [getUserPreference, h1, hexp]
    rw [h2]
    simp [getUserPreference, lookupKey_mapDelete_self]

/-- C8 witness: a default-TTL preference set at 0 expires at 86400000;
a read at 86400001 deletes it and a later read at 50 misses. -/
theorem c8_preference_ttl_witness :
    claimExpiry 0 ⟨.skip, none⟩ < 86400001 ∧
    (getUserPreference 50 (prefKey "search" none)
        ((getUserPreference 86400001 (prefKey "search" none)
            (setUserPreference 0 "search" none ⟨.skip, none⟩ [])).2)).1 = none :=
  ⟨by decide,
   (c8_preference_ttl 0 86400001 50 [] "search" none ⟨.skip, none⟩ (by decide)).2.2⟩

lemma bumpRec_id (now : Int) (a : StoredAutomation) : (bumpRec now a).id = a.id := rfl

lemma bumpIter_id (now : Int) (n : Nat) (a : StoredAutomation) :
    ((bumpRec now)^[n] a).id = a.id := by
  induction n with
  | zero => rfl
  | succ k ih => rw [Function.iterate_succ_apply', bumpRec_id, ih]

lemma idbGetById_singleton (id : String) (b : StoredAutomation) (h : b.id = id) :
    idbGetById id [b] = some b := by
  simp [idbGetById, List.find?, h]

lemma idbPut_singleton (x b : StoredAutomation) (h : b.id = x.id) :
    idbPut x [b] = [x] := by
  simp [idbPut, h]

lemma iterUpd_singleton (now : Int) (a : StoredAutomation) (n : Nat) :
    iterUpd now a.id n [a] = [(bumpRec now)^[n] a] := by
  induction n with
  | zero => rfl
  | succ k ih =>
      have hid : ((bumpRec now)^[k] a).id = a.id := bumpIter_id now k a
      have hup : idbUpdateUsage now a.id [(bumpRec now)^[k] a]
          = .ok [bumpRec now ((bumpRec now)^[k] a)] := by
        rw [idbUpdateUsage, idbGetById_singleton a.id _ hid]
        simp only [idbSave]
        exact congrArg Except.ok
          (idbPut_singleton (bumpRec now ((bumpRec now)^[k] a)) ((bumpRec now)^[k] a) rfl)
      rw [iterUpd, ih, hup, Function.iterate_succ_apply']

lemma bumpRec_conf (now : Int) (b : StoredAutomation) :
    (bumpRec now b).metadata.confidence = min 1 (b.metadata.confidence + 1/20) := rfl

lemma bumpIter_conf (now : Int) (a : StoredAutomation)
    (h1 : a.metadata.confidence ≤ 1) (n : Nat) :
    ((bumpRec now)^[n] a).metadata.confidence
      = min 1 (a.metadata.confidence + (n : ℚ) * (1/20)) := by
  induction n with
  | zero => simp [min_eq_right h1]
  | succ k ih =>
      rw [Function.iterate_succ_apply', bumpRec_conf, ih]
      rcases le_or_lt (a.metadata.confidence + (k : ℚ) * (1/20)) 1 with hk | hk
      · rw [min_eq_right hk]
        have : a.metadata.confidence + (k : ℚ) * (1/20) + 1/20
            = a.metadata.confidence + ((k : Nat) + 1 : ℚ) * (1/20) := by ring
        rw [this]
        push_cast
        ring_nf
      · rw [min_eq_left (le_of_lt hk)]
        have hlo : (1:ℚ) ≤ a.metadata.confidence + (((k : Nat) + 1 : ℚ)) * (1/20) := by
          nlinarith
        rw [min_eq_left (by norm_num), Nat.cast_succ]
        exact (min_eq_left hlo).symm

/-- C5: starting from confidence `c0 ∈ [0,1]`, after `N` successful
`updateUsage` calls the stored confidence is exactly
`min 1 (c0 + 0.05 * N)`; after every intermediate call it lies in `[0,1]`
and it never decreases from one call to the next; the in-memory backend
applies exactly the same record mutation on every successful call.  (The
read operations `getById` / `findMatching` are pure in this embedding,
mirroring the source's readonly transactions, so no read changes a
stored confidence.) -/
theorem c5_confidence_saturation (a : StoredAutomation) (now : Int) (N : Nat)
    (h0 : 0 ≤ a.metadata.confidence) (h1 : a.metadata.confidence ≤ 1) :
    confById a.id (iterUpd now a.id N [a])
      = some (min 1 (a.metadata.confidence + (N : ℚ) * (1/20))) ∧
    (∀ k : Nat, ∃ ck : ℚ,
      confById a.id (iterUpd now a.id k [a]) = some ck ∧
      0 ≤ ck ∧ ck ≤ 1 ∧
      (∀ ck' : ℚ, confById a.id (iterUpd now a.id (k+1) [a]) = some ck' → ck ≤ ck')) ∧
    (∀ (s : MemStore) (b : StoredAutomation), lookupKey s a.id = some b →
      lookupKey (memUpdateUsage now a.id s) a.id = some (bumpRec now b)) := by
  have key : ∀ k : Nat, confById a.id (iterUpd now a.id k [a])
      = some (min 1 (a.metadata.confidence + (k : ℚ) * (1/20))) := by
    intro k
    rw [iterUpd_singleton, confById,
      idbGetById_singleton a.id _ (bumpIter_id now k a)]
    simp [bumpIter_conf now a h1 k]
  refine ⟨key N, ?_, ?_⟩
  case refine_2 =>
    intro s b hb
    rw [memUpdateUsage, hb]
    exact lookupKey_mapSet_self s a.id (bumpRec now b)
  intro k
  refine ⟨min 1 (a.metadata.confidence + (k : ℚ) * (1/20)), key k, ?_, ?_, ?_⟩
  · refine le_min (by norm_num) ?_
    have : (0:ℚ) ≤ (k : ℚ) * (1/20) := by positivity
    linarith
  · exact min_le_left _ _
  · intro ck' h'
    rw [key (k+1)] at h'
    have h'' : ck' = min 1 (a.metadata.confidence + ((k:Nat) + 1 : ℚ) * (1/20)) := by
      injection h' with h''
      rw [← h'']
      push_cast
      ring_nf
    rw [h'']
    refine min_le_min (le_refl 1) ?_
    have : (k : ℚ) * (1/20) ≤ ((k:Nat) + 1 : ℚ) * (1/20) := by
      linarith
    linarith

/-- C5 witness: confidence 0.8 saturates to exactly 1 after five
updates. -/
theorem c5_confidence_saturation_witness :
    (0:ℚ) ≤ baseAuto.metadata.confidence ∧ baseAuto.metadata.confidence ≤ 1 ∧
    confById baseAuto.id (iterUpd 7 baseAuto.id 5 [baseAuto]) = some 1 := by
  have h := (c5_confidence_saturation baseAuto 7 5
    (by with_unfolding_all decide) (by with_unfolding_all decide)).1
  refine ⟨by with_unfolding_all decide, by with_unfolding_all decide, ?_⟩
  rw [h]
  norm_num [baseAuto, Rat.mkRat_eq_div]

lemma lookupKey_append_of_none {α : Type} (xs ys : List (String × α)) (k : String)
    (h : lookupKey xs k = none) :
    lookupKey (xs ++ ys) k = lookupKey ys k := by
  induction xs with
  | nil => rfl
  | cons e t ih =>
      obtain ⟨k', w⟩ := e
      by_cases he : k' == k
      · simp [lookupKey, he] at h
      · simp only [lookupKey, he, List.cons_append, Bool.false_eq_true, if_false] at h ⊢
        exact ih h

lemma mapSet_of_none {α : Type} (m : List (String × α)) (k : String) (v : α)
    (h : lookupKey m k = none) :
    mapSet k v m = m ++ [(k, v)] := by
  induction m with
  | nil => rfl
  | cons e t ih =>
      obtain ⟨k', w⟩ := e
      by_cases he : k' == k
      · simp [lookupKey, he] at h
      · simp only [lookupKey, he, Bool.false_eq_true, if_false] at h
        simp only [mapSet, he, Bool.false_eq_true, if_false, List.cons_append]
        rw [ih h]

lemma memImport_cons (a : StoredAutomation) (t : List StoredAutomation) (acc : MemStore) :
    memImport (a :: t) acc = memImport t (mapSet a.id a acc) := rfl

lemma memImport_fresh (l : List StoredAutomation) (acc : MemStore)
    (hn : (l.map (fun a => a.id)).Nodup)
    (hf : ∀ a ∈ l, lookupKey acc a.id = none) :
    memImport l acc = acc ++ l.map (fun a => (a.id, a)) := by
  induction l generalizing acc with
  | nil => simp [memImport]
  | cons a t ih =>
      have h1 : mapSet a.id a acc = acc ++ [(a.id, a)] :=
        mapSet_of_none acc a.id a (hf a (List.mem_cons_self a t))
      have hn' : (t.map (fun a => a.id)).Nodup := (List.nodup_cons.mp hn).2
      have hf' : ∀ b ∈ t, lookupKey (acc ++ [(a.id, a)]) b.id = none := by
        intro b hb
        rw [lookupKey_append_of_none _ _ _ (hf b (List.mem_cons_of_mem a hb))]
        have hne : ¬ (a.id = b.id) := by
          intro hEq
          have hmem : a.id ∈ t.map (fun x => x.id) := by
            rw [hEq]
            exact List.mem_map_of_mem (fun x => x.id) hb
          exact (List.nodup_cons.mp hn).1 hmem
        simp [lookupKey, hne]
      rw [memImport_cons, h1, ih (acc ++ [(a.id, a)]) hn' hf']
      simp

/-- C9: `exportAutomations` then `clearAllAutomations` then
`importAutomations` of the exported list rebuilds the original store
exactly (same ids, same field values, same order), so `findMatching({})`
is observably identical before and after. -/
theorem c9_export_import_roundtrip (st : ManagerState)
    (hn : (st.store.map (fun kv => kv.1)).Nodup)
    (hc : ∀ kv ∈ st.store, (kv.2).id = kv.1) :
    (importAutomations (exportAutomations st) (clearAllAutomations st)).store = st.store ∧
    memFindMatching emptyCriteria
        (importAutomations (exportAutomations st) (clearAllAutomations st)).store
      = memFindMatching emptyCriteria st.store := by
  have hmap : (memValues st.store).map (fun a => (a.id, a)) = st.store := by
    rw [memValues, List.map_map]
    have hcg : ∀ kv ∈ st.store, ((fun a => (a.id, a)) ∘ (fun kv => kv.2)) kv = id kv := by
      intro kv hkv
      simp only [Function.comp, id]
      exact Prod.ext (hc kv hkv) rfl
    rw [List.map_congr_left hcg, List.map_id]
  have hnv : ((memValues st.store).map (fun a => a.id)).Nodup := by
    rw [memValues, List.map_map]
    have hcg : ∀ kv ∈ st.store, ((fun a => a.id) ∘ (fun kv => kv.2)) kv = kv.1 := by
      intro kv hkv
      exact hc kv hkv
    rw [List.map_congr_left hcg]
    exact hn
  have hstore : (importAutomations (exportAutomations st) (clearAllAutomations st)).store
      = st.store := by
    show memImport (memValues st.store) [] = st.store
    rw [memImport_fresh (memValues st.store) [] hnv (fun a _ => rfl),
      List.nil_append, hmap]
  exact ⟨hstore, by rw [hstore]⟩

/-- C9 witness: the round-trip on a concrete two-record store. -/
theorem c9_export_import_roundtrip_witness :
    (c9Fixture.store.map (fun kv => kv.1)).Nodup ∧
    (importAutomations (exportAutomations c9Fixture) (clearAllAutomations c9Fixture)).store
      = c9Fixture.store :=
  ⟨by with_unfolding_all decide,
   (c9_export_import_roundtrip c9Fixture (by with_unfolding_all decide)
      (by with_unfolding_all decide)).1⟩

lemma embedsChunks_iff (cs : List (List Char)) (s : List Char) :
    embedsChunks cs s = true ↔ ChunksEmbed cs s := by
  induction cs generalizing s with
  | nil =>
      simp only [embedsChunks]
      exact ⟨fun _ => ChunksEmbed.nil s, fun _ => trivial⟩
  | cons c cs ih =>
      constructor
      · intro h
        simp only [embedsChunks, List.any_eq_true, Bool.and_eq_true] at h
        obtain ⟨t, ht, hpre, hemb⟩ := h
        obtain ⟨pre, hpre'⟩ := (List.mem_tails _ _).mp ht
        obtain ⟨rest, hrest⟩ := List.isPrefixOf_iff_prefix.mp hpre
        have hdrop : t.drop c.length = rest := by
          rw [← hrest]
          exact List.drop_left c rest
        rw [hdrop] at hemb
        have hrec : ChunksEmbed (c :: cs) (pre ++ (c ++ rest)) :=
          ChunksEmbed.cons c cs pre rest ((ih rest).mp hemb)
        rwa [hrest, hpre'] at hrec
      · intro h
        cases h with
        | cons c cs pre rest hrec =>
            simp only [embedsChunks, List.any_eq_true, Bool.and_eq_true]
            refine ⟨c ++ rest, ?_, ?_, ?_⟩
            · exact (List.mem_tails _ _).mpr ⟨pre, rfl⟩
            · exact List.isPrefixOf_iff_prefix.mpr ⟨rest, rfl⟩
            · rw [List.drop_left]
              exact (ih rest).mpr hrec

lemma ctxPatOk_iff (ctx : List (String × JSVal)) (kp : String × JSVal) :
    ((match kp.2 with
      | .str p =>
          if p.contains '*' then regexStarTest p (jsString (jsCtxGet ctx kp.1))
          else jsCtxGet ctx kp.1 == JSVal.str p
      | .undefined => jsCtxGet ctx kp.1 == JSVal.undefined) = true) ↔ ctxPatOk ctx kp := by
  obtain ⟨k, pat⟩ := kp
  cases pat with
  | str p =>
      by_cases hstar : p.contains '*'
      · simp only [ctxPatOk, hstar, if_true, regexStarTest]
        exact embedsChunks_iff _ _
      · simp [ctxPatOk, hstar, beq_iff_eq]
  | undefined => simp [ctxPatOk, beq_iff_eq]

/-- C3 (amended): an automation passes the context filter of
`findMatching` iff it has no `contextPatterns`, or for every patterned
key the candidate's context value equals a star-free pattern exactly,
and for a pattern containing `*` the chunks between the stars occur
disjointly and in order SOMEWHERE in the stringified context value (an
unanchored search, not a full match: `"abc*"` also accepts `"xabc"`). -/
theorem c3_context_rule (a : StoredAutomation) (ctx : List (String × JSVal)) :
    matchesContext a ctx = true ↔
      (a.matching.contextPatterns = none ∨
       ∃ pats, a.matching.contextPatterns = some pats ∧ ∀ kp ∈ pats, ctxPatOk ctx kp) := by
  rw [matchesContext]
  cases hcp : a.matching.contextPatterns with
  | none => simp [matchesContextPats]
  | some pats =>
      simp only [matchesContextPats, List.all_eq_true]
      constructor
      · intro h
        refine Or.inr ⟨pats, rfl, ?_⟩
        intro kp hkp
        exact (ctxPatOk_iff ctx kp).mp (h kp hkp)
      · intro h
        rcases h with h | ⟨pats', heq, hall⟩
        · exact absurd h (by simp)
        · intro kp hkp
          have : pats' = pats := by
            injection heq with h
            exact h.symm
          exact (ctxPatOk_iff ctx kp).mpr (hall kp (this ▸ hkp))

end Semantest
